import Mathlib

/-!
Shallow embedding of the pvx-news-agent repository (src/main.py,
src/company_personnel.py, src/company_data.py).

The persisted JSON files are modelled by their parsed contents: the program
only ever writes `json.dumps` of a Python dict (company-data file) or of a
sorted list of strings (watch-list file), so a file state is either missing,
present-but-unparseable (`corrupt`), or the parsed value it holds.  Python
dicts are association lists with first-match lookup and
replace-first-else-append assignment, which coincides with Python dict
semantics for the unique-key dicts this program builds.  Exceptions are
modelled with `Except String`; an `Except.error` result of a persistence
operation means the exception propagated before the file was rewritten, so
the caller still holds the previous file state (mirroring the source, where
`write_text` is the last line of every save helper).
-/

namespace NewsAgent

/-- A JSON value, as produced by Python `json.loads`.  Numbers are modelled
as integers; the claims under study never depend on non-integer numerics. -/
inductive JsonVal where
  | null : JsonVal
  | bool (b : Bool) : JsonVal
  | num (n : Int) : JsonVal
  | str (s : String) : JsonVal
  | arr (elems : List JsonVal) : JsonVal
  | obj (entries : List (String × JsonVal)) : JsonVal

/-- Python dict lookup `d.get(k)` on an association list: first match wins. -/
def dictFind {α : Type} : List (String × α) → String → Option α
  | [], _ => none
  | (k', v) :: rest, k => if k' = k then some v else dictFind rest k

/-- Python dict assignment `d[k] = v` on an association list: replace the
first binding of `k` in place, or append a new binding. -/
def dictInsert {α : Type} : List (String × α) → String → α → List (String × α)
  | [], k, v => [(k, v)]
  | (k', v') :: rest, k, v =>
      if k' = k then (k, v) :: rest else (k', v') :: dictInsert rest k v

/-- The keys of a JSON object; other JSON values have no keys. -/
def recordKeys : JsonVal → List String
  | .obj entries => entries.map Prod.fst
  | _ => []

/-- Python `rec[k]` on a JSON value: `KeyError` when the key is absent,
`TypeError` when the value is not a dict. -/
def jGet : JsonVal → String → Except String JsonVal
  | .obj entries, k =>
      match dictFind entries k with
      | some v => .ok v
      | none => .error "KeyError"
  | _, _ => .error "TypeError"

/-- Python `rec[k] = v` on a JSON value: `TypeError` when it is not a dict. -/
def jSet : JsonVal → String → JsonVal → Except String JsonVal
  | .obj entries, k, v => .ok (.obj (dictInsert entries k v))
  | _, _, _ => .error "TypeError"

/-- Python `rec.get(k)` on a JSON value: soft `none` when the key is absent,
`AttributeError` when the value is not a dict. -/
def jGetSoft : JsonVal → String → Except String (Option JsonVal)
  | .obj entries, k => .ok (dictFind entries k)
  | _, _ => .error "AttributeError"

/-- State of a persisted file whose well-formed contents parse to `α`:
absent, present but not parseable, or holding a parsed value. -/
inductive FileState (α : Type) where
  | missing : FileState α
  | corrupt : FileState α
  | content (v : α) : FileState α

/-- The company-data file: its well-formed contents are a JSON object keyed
by company name (the only shape `save_company_data` / `save_intermediate_data`
ever write). -/
abbrev CFile := FileState (List (String × JsonVal))

/-! ### A model of Python `json.loads`

An executable partial model of `json.loads` (an external stdlib dependency):
a recursive-descent parser over the JSON subset without escape sequences or
non-integer numbers.  Every theorem below only quantifies over the outcome of
`json_loads` (`some v` / `none`), so the subset only bounds which concrete
witnesses can be evaluated, never what is proved. -/

/-- Left brace character (`{`). -/
def lbrace : Char := Char.ofNat 123

/-- Right brace character (`}`). -/
def rbrace : Char := Char.ofNat 125

/-- Drop leading JSON whitespace. -/
def skipWs : List Char → List Char
  | [] => []
  | c :: cs =>
      if c = ' ' ∨ c = '\n' ∨ c = '\t' ∨ c = '\r' then skipWs cs else c :: cs

/-- Parse the body of a string literal after the opening quote; escape
sequences are outside the modelled subset. -/
def strBody : List Char → Option (List Char × List Char)
  | [] => none
  | c :: cs =>
      if c = '"' then some ([], cs)
      else if c = '\\' then none
      else (strBody cs).map (fun p => (c :: p.1, p.2))

/-- Split off a maximal run of decimal digits. -/
def digitRun : List Char → List Char × List Char
  | [] => ([], [])
  | c :: cs =>
      if c.isDigit then
        let p := digitRun cs
        (c :: p.1, p.2)
      else ([], c :: cs)

/-- Decimal value of a digit run. -/
def digitsToNat : List Char → Nat
  | [] => 0
  | ds => ds.foldl (fun acc c => acc * 10 + (c.toNat - 48)) 0

/-- Consume an expected keyword prefix. -/
def eatKeyword (kw cs : List Char) : Option (List Char) :=
  if kw.isPrefixOf cs then some (cs.drop kw.length) else none

mutual

/-- Parse one JSON value (fuel-bounded recursive descent). -/
def parseVal : Nat → List Char → Option (JsonVal × List Char)
  | 0, _ => none
  | Nat.succ fuel, cs =>
      match skipWs cs with
      | [] => none
      | c :: rest =>
          if c = 'n' then
            (eatKeyword ['u', 'l', 'l'] rest).map (fun r => (.null, r))
          else if c = 't' then
            (eatKeyword ['r', 'u', 'e'] rest).map (fun r => (.bool true, r))
          else if c = 'f' then
            (eatKeyword ['a', 'l', 's', 'e'] rest).map (fun r => (.bool false, r))
          else if c = '"' then
            (strBody rest).map (fun p => (.str (String.mk p.1), p.2))
          else if c = '-' then
            match digitRun rest with
            | ([], _) => none
            | (ds, r) => some (.num (-(digitsToNat ds : Int)), r)
          else if c.isDigit then
            match digitRun (c :: rest) with
            | ([], _) => none
            | (ds, r) => some (.num (digitsToNat ds : Int), r)
          else if c = '[' then
            match skipWs rest with
            | ']' :: r => some (.arr [], r)
            | r => (parseElems fuel r).map (fun p => (.arr p.1, p.2))
          else if c = lbrace then
            match skipWs rest with
            | r =>
                if r.head? = some rbrace then some (.obj [], r.tail)
                else (parseMembers fuel r).map (fun p => (.obj p.1, p.2))
          else none

/-- Parse one or more comma-separated array elements and the closing `]`. -/
def parseElems : Nat → List Char → Option (List JsonVal × List Char)
  | 0, _ => none
  | Nat.succ fuel, cs =>
      match parseVal fuel cs with
      | none => none
      | some (v, rest) =>
          match skipWs rest with
          | ',' :: r =>
              (parseElems fuel r).map (fun p => (v :: p.1, p.2))
          | ']' :: r => some ([v], r)
          | _ => none

/-- Parse one or more comma-separated object members and the closing brace. -/
def parseMembers : Nat → List Char → Option (List (String × JsonVal) × List Char)
  | 0, _ => none
  | Nat.succ fuel, cs =>
      match skipWs cs with
      | '"' :: r0 =>
          match strBody r0 with
          | none => none
          | some (k, r1) =>
              match skipWs r1 with
              | ':' :: r2 =>
                  match parseVal fuel r2 with
                  | none => none
                  | some (v, r3) =>
                      match skipWs r3 with
                      | ',' :: r4 =>
                          (parseMembers fuel r4).map
                            (fun p => ((String.mk k, v) :: p.1, p.2))
                      | r4 =>
                          if r4.head? = some rbrace then
                            some ([(String.mk k, v)], r4.tail)
                          else none
              | _ => none
      | _ => none

end

/-- Model of Python `json.loads`: parse a complete JSON document, requiring
only trailing whitespace after the value; `none` models `json.JSONDecodeError`. -/
def json_loads (s : String) : Option JsonVal :=
  match parseVal (s.length + 1) s.toList with
  | some (v, rest) => if skipWs rest = [] then some v else none
  | none => none

/-! ### Persistence helpers (src/main.py lines 132-177) -/

/-- Python `sorted(set(watchlist))`: the canonically sorted list of the set
of names, under the lexicographic string order (matching Python's). -/
def pySortedSet (watchlist : List String) : List String :=
  Finset.sort (· ≤ ·) watchlist.toFinset

/-- Function load_watchlist (main.py:132): the parsed array, or `[]` when the file
is missing or any exception occurs while reading/parsing. -/
def load_watchlist : FileState (List String) → List String
  | .content w => w
  | _ => []

/-- Function save_watchlist (main.py:139): full overwrite with
`json.dumps(sorted(set(watchlist)))`. -/
def save_watchlist (watchlist : List String) : FileState (List String) :=
  .content (pySortedSet watchlist)

/-- Function load_company_data (main.py:143): the parsed object, or `{}` when the
file is missing or any exception occurs while reading/parsing. -/
def load_company_data : CFile → List (String × JsonVal)
  | .content d => d
  | _ => []

/-- Function save_company_data (main.py:155): read the store, run
`all_data[company]["final_summary"] = data` (a `KeyError` when `company` has
no record, a `TypeError` when its record is not a dict), then overwrite the
file. -/
def save_company_data (f : CFile) (company : String) (data : JsonVal) :
    Except String CFile :=
  match dictFind (load_company_data f) company with
  | none => .error "KeyError"
  | some record =>
      match jSet record "final_summary" data with
      | .error e => .error e
      | .ok record' =>
          .ok (.content (dictInsert (load_company_data f) company record'))

/-- Function get_company_data (main.py:162):
`load_company_data().get(company, {}).get("final_summary")`. -/
def get_company_data (f : CFile) (company : String) :
    Except String (Option JsonVal) :=
  match dictFind (load_company_data f) company with
  | none => .ok none
  | some record => jGetSoft record "final_summary"

/-- The record the statement `all_data[company][key] = ...` operates on after
the guard `if company not in all_data: all_data[company] = {}` (main.py:174):
the stored record, or a fresh `{}`. -/
def record_or_empty (f : CFile) (company : String) : JsonVal :=
  match dictFind (load_company_data f) company with
  | some r => r
  | none => JsonVal.obj []

/-- Function save_intermediate_data (main.py:172): read the store, default the
company's record to `{}` when absent, run
`all_data[company][key] = json.loads(data)` (a `JSONDecodeError` when `data`
is not JSON text, a `TypeError` when the record is not a dict), then
overwrite the file. -/
def save_intermediate_data (f : CFile) (company key data : String) :
    Except String CFile :=
  match json_loads data with
  | none => .error "JSONDecodeError"
  | some v =>
      match jSet (record_or_empty f company) key v with
      | .error e => .error e
      | .ok record' =>
          .ok (.content (dictInsert (load_company_data f) company record'))

/-! ### Configuration constants (src/main.py lines 42-66) -/

/-- Constant NUMBER_OF_DAYS (main.py:42). -/
def NUMBER_OF_DAYS : Nat := 180

/-- The type of the `TRUSTED_NEWS_SOURCES` configuration dict: category name
to list of source names. -/
abbrev SourcesDict := List (String × List String)

/-- Constant TRUSTED_NEWS_SOURCES (main.py:48). -/
def TRUSTED_NEWS_SOURCES : SourcesDict :=
  [("gaming_industry",
    ["Pocket Gamer", "PocketGamer.biz", "Gamezebo", "Deconstructor of Fun",
     "IGN", "Gamespot", "Kotaku", "VentureBeat (GamesBeat)"]),
   ("business_sources", ["TechCrunch", "Bloomberg", "Reuters"]),
   ("company_channels",
    ["LinkedIn posts", "X (Twitter) posts", "Company blog", "Press releases"])]

/-! ### Prompt builders (src/company_personnel.py, src/company_data.py)

Python `TRUSTED_NEWS_SOURCES["gaming_industry"]` etc. raise `KeyError` when
the category is absent, so the builders are embedded as `Except`-valued
functions; the three lookups happen, in source order, before the prompt
string is assembled, exactly as in the source (the joins on lines 64-66 /
58-60 precede the f-string). -/

/-- Dict indexing `TRUSTED_NEWS_SOURCES[category]`. -/
def sourcesGet (d : SourcesDict) (category : String) : Except String (List String) :=
  match dictFind d category with
  | some names => .ok names
  | none => .error "KeyError"

/-- Python `"\n    - ".join(names)`. -/
def joinSources (names : List String) : String :=
  String.intercalate "\n    - " names

/-- Function format_prompt_company_personnel_news_prompt (company_personnel.py:60). -/
def format_prompt_company_personnel_news_prompt (company personnel : String)
    (days : Nat) (trusted_news_sources : SourcesDict) : Except String String :=
  match sourcesGet trusted_news_sources "gaming_industry" with
  | .error e => .error e
  | .ok gaming_list =>
  match sourcesGet trusted_news_sources "business_sources" with
  | .error e => .error e
  | .ok business_list =>
  match sourcesGet trusted_news_sources "company_channels" with
  | .error e => .error e
  | .ok channels_list =>
  let gaming_sources := joinSources gaming_list
  let business_sources := joinSources business_list
  let company_channels := joinSources channels_list
  .ok ("\n    Given the company name and the key personnel of the company, you need to find all the news for each of the key personnel in last "
    ++ toString days ++ " days.\n    \n"
    ++ "    You need to find the news for each of the key personnel from the following sources:\n"
    ++ "    Sources:\n"
    ++ "    gaming industry: " ++ gaming_sources ++ "\n"
    ++ "    business sources: " ++ business_sources ++ "\n"
    ++ "    company channels: " ++ company_channels ++ "\n\n"
    ++ "    For each news you find, classify the news into the following categories:\n"
    ++ "    - Positive\n    - Negative\n    - Neutral\n\n"
    ++ "    Return the news in the following format:\n"
    ++ "    [\n        \x7b\n"
    ++ "            \"source_link\": \"https://www.linkedin.com/in/john-doe\",\n"
    ++ "            \"news\": \"Summary of the news\",\n"
    ++ "            \"date\": \"2025-01-01\",\n"
    ++ "            \"sentiment\": \"positive\",\n"
    ++ "        \x7d\n    ]\n"
    ++ "    Prioritise launches, funding, layoffs, hires, licensing, expansion, M&A, KPI milestones, exec thought-leadership, personnel posts.\n"
    ++ "    You must atleast 5 news in total.\n"
    ++ "    <TARGET_COMPANY>: " ++ company ++ "\n"
    ++ "    <KEY_PERSONNEL>: " ++ personnel ++ "\n\n")

/-- Function format_prompt_company_news_prompt (company_data.py:53). -/
def format_prompt_company_news_prompt (company company_details : String)
    (days : Nat) (trusted_news_sources : SourcesDict) : Except String String :=
  match sourcesGet trusted_news_sources "gaming_industry" with
  | .error e => .error e
  | .ok gaming_list =>
  match sourcesGet trusted_news_sources "business_sources" with
  | .error e => .error e
  | .ok business_list =>
  match sourcesGet trusted_news_sources "company_channels" with
  | .error e => .error e
  | .ok channels_list =>
  let gaming_sources := joinSources gaming_list
  let business_sources := joinSources business_list
  let company_channels := joinSources channels_list
  .ok ("\n    Given the company name company details and the news sources, you need to find all the news for the company in last "
    ++ toString days ++ " days.\n        \n"
    ++ "    You need to find all news from any of the following sources for the company in the last "
    ++ toString days ++ " days:\n"
    ++ "    Sources:\n"
    ++ "    gaming industry: " ++ gaming_sources ++ "\n"
    ++ "    business sources: " ++ business_sources ++ "\n"
    ++ "    company channels: " ++ company_channels ++ "\n\n"
    ++ "    and classify the news into the following categories:\n"
    ++ "    - Positive\n    - Negative\n    - Neutral\n\n"
    ++ "    Return the news in the following format:\n"
    ++ "    [\n        \x7b\n"
    ++ "            \"source_link\": \"https://venturebeat.com/2025/01/01/company-launches-new-product\",\n"
    ++ "            \"news\": \"Summary of the news\",\n"
    ++ "            \"date\": \"2025-01-01\",\n"
    ++ "            \"sentiment\": \"positive\"\n"
    ++ "        \x7d\n    ]\n"
    ++ "    Prioritise launches, funding, layoffs, hires, licensing, expansion, M&A, KPI milestones, exec thought-leadership, personnel posts.\n\n"
    ++ "    <TARGET_COMPANY>: " ++ company ++ "\n"
    ++ "    <COMPANY_DETAILS>: " ++ company_details ++ "\n\n")

/-! ### Final formatting prompt (src/main.py lines 79-124) -/

/-- Function format_prompt (main.py:79): the system prompt for the final formatting
chat call, interpolating the company and the four stage outputs. -/
def format_prompt (company personnel personnel_news company_details
    company_news : String) : String :=
  "\n🧠 Prompt for a News AI Agent (Gaming-Focused)\n"
  ++ "You are a News Intelligence Agent trained to monitor and summarize financial-impacting developments for mobile gaming companies and apps. \n"
  ++ "I will give you all the relevant information about the company and the key personnel and their news. I want you to format the information. Add comments if needed.\n\n"
  ++ "FORMAT THE GIVEN INFORMATION IN A READABLE FORMAT.\n\n"
  ++ "<TARGET_COMPANY>: " ++ company ++ "\n"
  ++ "<PERSONNEL>: " ++ personnel ++ "\n"
  ++ "<PERSONNEL_NEWS>: " ++ personnel_news ++ "\n"
  ++ "<COMPANY_DETAILS>: " ++ company_details ++ "\n"
  ++ "<COMPANY_NEWS>: " ++ company_news ++ "\n\n"
  ++ "**Output (nothing else):**\n\n"
  ++ "### Company Details\n- Details of the company\n\n"
  ++ "### Key Personnel\n- Details of the key personnel\n\n"
  ++ "### 📰 Company News (Past 6 Months) [Ensure that the source link is mentioned in the citation]\n"
  ++ "| Sentiment(✅/Neutral/❌) | Source | Headline | Summary (≤ 30 words) | [Citation-Mention the source link] |\n"
  ++ "|------|--------|----------|----------------------|------------|\n| ...... |\n\n"
  ++ "### 📰 Key Personnel News (Past 6 Months) [Ensure that the source link is mentioned in the citation]\n"
  ++ "| Sentiment(✅/Neutral/❌) | Source | Headline | Summary (≤ 30 words) | [Citation-Mention the source link] |\n"
  ++ "|------|--------|----------|----------------------|------------|\n| ...... |\n\n"
  ++ "### ⚡ Financial & Strategic Sentiment\n"
  ++ "➡️ Positive / Negative / Neutral — *one-sentence justification.*\n\n"
  ++ "*Do not output any content outside the sections above.*\n\n"

/-! ### Pipeline orchestrator (src/main.py lines 180-215)

The four OpenAI-backed extraction stages and the final chat call are remote
calls; they are modelled as may-fail oracles with the source functions'
signatures (`client` and the other fixed arguments elided where constant).
`Except.error` models a raised exception. -/

/-- The remote-call boundary: the four structured-extraction stage functions
(src/company_personnel.py, src/company_data.py) and the final
`client.chat.completions.create` call, each returning a string (for the
extraction stages, `res.model_dump_json(indent=2)`) or raising. -/
structure Remote where
  get_company_personnel : String → Except String String
  get_company_personnel_news :
    String → String → Nat → SourcesDict → Except String String
  get_company_details : String → Except String String
  get_company_news : String → String → Nat → SourcesDict → Except String String
  chat_completions_create : String → Except String String

/-- The remote calls of one full pipeline run, in source order. -/
def pipelineStages : List String :=
  ["get_company_personnel", "get_company_personnel_news",
   "get_company_details", "get_company_news", "chat_completions_create"]

/-- Outcome of `run_news_agent`: the company-data file as left on disk (its
writes are durable even when a later stage raises), the remote calls that
were executed, and the returned markdown or the propagated exception. -/
structure RunResult where
  store : CFile
  calls : List String
  result : Except String String

/-- Function run_news_agent (main.py:180): personnel → personnel news → company
details → company news → final chat formatting, persisting the first three
stage outputs as they arrive; the `save_intermediate_data` call for
`company_news` is commented out in the source.  Any raise stops the run,
leaving the file writes made so far. -/
def run_news_agent (r : Remote) (company : String) (f : CFile) : RunResult :=
  match r.get_company_personnel company with
  | .error e => ⟨f, pipelineStages.take 1, .error e⟩
  | .ok personnel =>
  match save_intermediate_data f company "personnel" personnel with
  | .error e => ⟨f, pipelineStages.take 1, .error e⟩
  | .ok s1 =>
  match r.get_company_personnel_news company personnel NUMBER_OF_DAYS
      TRUSTED_NEWS_SOURCES with
  | .error e => ⟨s1, pipelineStages.take 2, .error e⟩
  | .ok personnel_news =>
  match save_intermediate_data s1 company "personnel_news" personnel_news with
  | .error e => ⟨s1, pipelineStages.take 2, .error e⟩
  | .ok s2 =>
  match r.get_company_details company with
  | .error e => ⟨s2, pipelineStages.take 3, .error e⟩
  | .ok company_details =>
  match save_intermediate_data s2 company "company_details" company_details with
  | .error e => ⟨s2, pipelineStages.take 3, .error e⟩
  | .ok s3 =>
  match r.get_company_news company company_details NUMBER_OF_DAYS
      TRUSTED_NEWS_SOURCES with
  | .error e => ⟨s3, pipelineStages.take 4, .error e⟩
  | .ok company_news =>
  match r.chat_completions_create
      (format_prompt company personnel personnel_news company_details
        company_news) with
  | .error e => ⟨s3, pipelineStages, .error e⟩
  | .ok content => ⟨s3, pipelineStages, .ok content⟩

/-- The `{"summary": ..., "timestamp": ...}` dict persisted under
`final_summary` (main.py:231, main.py:270). -/
def finalSummaryVal (summary timestamp : String) : JsonVal :=
  .obj [("summary", .str summary), ("timestamp", .str timestamp)]

/-- The "Fetch Summary" button handler (main.py:263-276): run the pipeline
and persist the summary with a timestamp, all inside one `try`; on any raise,
display the error (`st.error`, modelled as the returned `Option String`)
without writing a final summary. -/
def fetch_summary_handler (r : Remote) (company now : String) (f : CFile) :
    CFile × Option String :=
  let run := run_news_agent r company f
  match run.result with
  | .error e => (run.store, some e)
  | .ok summary =>
      match save_company_data run.store company (finalSummaryVal summary now) with
      | .error e => (run.store, some e)
      | .ok s' => (s', none)

/-! ### Scheduler (src/main.py lines 223-247, 316-318)

`schedule_weekly_refresh(run_news_agent, watchlist)` registers a cron job
whose closure iterates the `watchlist` list captured at registration.  The
job body `refresh_all` is embedded below; `trigger_scheduled_job` models one
cron trigger, taking both the captured list and the watch-list file as it
stands at trigger time (ambient state the job body never reads). -/

/-- The log line printed by the scheduler's per-company `except` clause
(main.py:238). -/
def schedErrMsg (comp e : String) : String :=
  "[Scheduler] Error processing " ++ comp ++ ": " ++ e

/-- One iteration of the `for comp in watchlist` loop inside `refresh_all`
(main.py:227-238): run the pipeline and persist the timestamped summary,
catching any exception into a log line. -/
def refresh_step (r : Remote) (now comp : String) (f : CFile) :
    CFile × List String :=
  let run := run_news_agent r comp f
  match run.result with
  | .error e => (run.store, [schedErrMsg comp e])
  | .ok summary =>
      match save_company_data run.store comp (finalSummaryVal summary now) with
      | .error e => (run.store, [schedErrMsg comp e])
      | .ok s' => (s', [])

/-- Outcome of one `refresh_all` job run: the company-data file, the log
lines printed, and the companies iterated over, in order. -/
structure RefreshResult where
  store : CFile
  log : List String
  processed : List String

/-- Function refresh_all (main.py:226-238): iterate the watch-list sequentially,
catching and logging per-company errors. -/
def refresh_all (r : Remote) (now : String) : List String → CFile → RefreshResult
  | [], f => ⟨f, [], []⟩
  | comp :: rest, f =>
      let step := refresh_step r now comp f
      let res := refresh_all r now rest step.1
      ⟨res.store, step.2 ++ res.log, comp :: res.processed⟩

/-- One cron trigger of the job registered by `schedule_weekly_refresh`
(main.py:240-247, registered at main.py:317 with the watch-list loaded at
process start): the closure runs `refresh_all` over the captured list; the
watch-list file as it stands at trigger time is not consulted. -/
def trigger_scheduled_job (captured : List String)
    (watch_file_at_trigger : FileState (List String)) (r : Remote)
    (now : String) (f : CFile) : RefreshResult :=
  refresh_all r now captured f

/-! ### Observations and store predicates -/

/-- Whether an `Except` result is a raised exception. -/
def isError {α : Type} : Except String α → Bool
  | .error _ => true
  | .ok _ => false

/-- The value at `load_company_data()[company][key]` when it exists: the
field `key` of the record of `company`. -/
def storedField (f : CFile) (company key : String) : Option JsonVal :=
  match dictFind (load_company_data f) company with
  | some (JsonVal.obj entries) => dictFind entries key
  | _ => none

/-- The record of `company`, if present, is a JSON object (the only record
shape this program ever writes). -/
def IsObjOrAbsent (f : CFile) (company : String) : Prop :=
  ∀ record, dictFind (load_company_data f) company = some record →
    ∃ entries, record = JsonVal.obj entries

/-- Every key of every stored company record satisfies `S`. -/
def RecordKeysIn (f : CFile) (S : String → Prop) : Prop :=
  ∀ c record, dictFind (load_company_data f) c = some record →
    ∀ k, k ∈ recordKeys record → S k

/-- The record keys the spec's data model allows. -/
def allowedRecordKeys : List String :=
  ["personnel", "personnel_news", "company_details", "final_summary"]

/-- The source-list categories every news prompt requires. -/
def requiredSourceCategories : List String :=
  ["gaming_industry", "business_sources", "company_channels"]

/-! ### Dict lemmas -/

theorem dictFind_dictInsert {α : Type} (l : List (String × α)) (k : String)
    (v : α) (k' : String) :
    dictFind (dictInsert l k v) k' = if k' = k then some v else dictFind l k' := by
  induction l with
  | nil =>
      by_cases h : k' = k
      · simp [dictInsert, dictFind, h]
      · simp [dictInsert, dictFind, h, Ne.symm h]
  | cons hd tl ih =>
      obtain ⟨a, b⟩ := hd
      by_cases hak : a = k
      · by_cases h : k' = k
        · simp [dictInsert, dictFind, hak, h]
        · simp [dictInsert, dictFind, hak, h, Ne.symm h]
      · by_cases h2 : a = k'
        · have hk : ¬k' = k := fun hh => hak (h2.trans hh)
          simp [dictInsert, dictFind, hak, h2, hk]
        · simp [dictInsert, dictFind, hak, h2, ih]

theorem mem_keys_dictInsert {α : Type} (l : List (String × α)) (k : String)
    (v : α) (k' : String) (h : k' ∈ (dictInsert l k v).map Prod.fst) :
    k' = k ∨ k' ∈ l.map Prod.fst := by
  induction l with
  | nil => simpa [dictInsert] using h
  | cons hd tl ih =>
      obtain ⟨a, b⟩ := hd
      by_cases hak : a = k
      · subst hak
        simpa [dictInsert] using h
      · simp only [dictInsert, if_neg hak, List.map_cons, List.mem_cons] at h
        rcases h with h | h
        · exact Or.inr (by simp [h])
        · rcases ih h with h' | h'
          · exact Or.inl h'
          · exact Or.inr (by simp [h'])

/-! ### Lemmas about the save operations -/

theorem load_company_data_content (d : List (String × JsonVal)) :
    load_company_data (.content d) = d := rfl

theorem save_intermediate_data_ok {f : CFile} {company key data : String}
    {s' : CFile} (h : save_intermediate_data f company key data = .ok s') :
    ∃ v entries, json_loads data = some v ∧
      record_or_empty f company = JsonVal.obj entries ∧
      s' = .content (dictInsert (load_company_data f) company
            (.obj (dictInsert entries key v))) := by
  unfold save_intermediate_data at h
  cases hj : json_loads data with
  | none => rw [hj] at h; exact absurd h (by simp)
  | some v =>
      rw [hj] at h
      cases hr : record_or_empty f company with
      | obj entries =>
          rw [hr] at h
          simp only [jSet, Except.ok.injEq] at h
          exact ⟨v, entries, rfl, rfl, h.symm⟩
      | null => rw [hr] at h; exact absurd h (by simp [jSet])
      | bool b => rw [hr] at h; exact absurd h (by simp [jSet])
      | num n => rw [hr] at h; exact absurd h (by simp [jSet])
      | str s => rw [hr] at h; exact absurd h (by simp [jSet])
      | arr elems => rw [hr] at h; exact absurd h (by simp [jSet])

theorem save_company_data_ok {f : CFile} {company : String} {data : JsonVal}
    {s' : CFile} (h : save_company_data f company data = .ok s') :
    ∃ entries, dictFind (load_company_data f) company = some (.obj entries) ∧
      s' = .content (dictInsert (load_company_data f) company
            (.obj (dictInsert entries "final_summary" data))) := by
  unfold save_company_data at h
  cases hr : dictFind (load_company_data f) company with
  | none => rw [hr] at h; exact absurd h (by simp)
  | some record =>
      rw [hr] at h
      cases record with
      | obj entries =>
          simp only [jSet, Except.ok.injEq] at h
          exact ⟨entries, rfl, h.symm⟩
      | null => exact absurd h (by simp [jSet])
      | bool b => exact absurd h (by simp [jSet])
      | num n => exact absurd h (by simp [jSet])
      | str s => exact absurd h (by simp [jSet])
      | arr elems => exact absurd h (by simp [jSet])

theorem save_intermediate_data_other_company {f : CFile}
    {company key data : String} {s' : CFile}
    (h : save_intermediate_data f company key data = .ok s')
    (c' : String) (hne : c' ≠ company) :
    dictFind (load_company_data s') c' = dictFind (load_company_data f) c' := by
  obtain ⟨v, entries, _, _, rfl⟩ := save_intermediate_data_ok h
  simp [load_company_data, dictFind_dictInsert, hne]

theorem save_company_data_other_company {f : CFile} {company : String}
    {data : JsonVal} {s' : CFile}
    (h : save_company_data f company data = .ok s')
    (c' : String) (hne : c' ≠ company) :
    dictFind (load_company_data s') c' = dictFind (load_company_data f) c' := by
  obtain ⟨entries, _, rfl⟩ := save_company_data_ok h
  simp [load_company_data, dictFind_dictInsert, hne]

theorem save_intermediate_data_get_company_data {f : CFile}
    {company key data : String} {s' : CFile}
    (h : save_intermediate_data f company key data = .ok s')
    (hkey : key ≠ "final_summary") (c₀ : String) :
    get_company_data s' c₀ = get_company_data f c₀ := by
  obtain ⟨v, entries, _, hrec, rfl⟩ := save_intermediate_data_ok h
  by_cases hc : c₀ = company
  · subst hc
    unfold get_company_data
    simp only [load_company_data_content, dictFind_dictInsert, if_pos rfl]
    unfold record_or_empty at hrec
    cases hf : dictFind (load_company_data f) c₀ with
    | none =>
        rw [hf] at hrec
        have he : entries = [] := by
          simpa [JsonVal.obj.injEq] using hrec.symm
        subst he
        simp [jGetSoft, dictFind_dictInsert, hkey, Ne.symm hkey, dictFind]
    | some record =>
        rw [hf] at hrec
        simp only at hrec
        subst hrec
        simp [jGetSoft, dictFind_dictInsert, hkey, Ne.symm hkey]
  · unfold get_company_data
    simp only [load_company_data_content, dictFind_dictInsert, if_neg hc]

theorem save_intermediate_data_keys {f : CFile} {company key data : String}
    {s' : CFile} (h : save_intermediate_data f company key data = .ok s')
    (S : String → Prop) (hS : S key) (hf : RecordKeysIn f S) :
    RecordKeysIn s' S := by
  obtain ⟨v, entries, _, hrec, rfl⟩ := save_intermediate_data_ok h
  intro c record hfind k hk
  by_cases hc : c = company
  · subst hc
    rw [load_company_data, dictFind_dictInsert, if_pos rfl] at hfind
    obtain rfl : JsonVal.obj (dictInsert entries key v) = record := by
      simpa using hfind
    simp only [recordKeys] at hk
    rcases mem_keys_dictInsert entries key v k hk with rfl | hmem
    · exact hS
    · unfold record_or_empty at hrec
      cases hf0 : dictFind (load_company_data f) c with
      | none =>
          rw [hf0] at hrec
          have : entries = [] := by
            simpa [JsonVal.obj.injEq] using hrec.symm
          subst this
          simp at hmem
      | some record0 =>
          rw [hf0] at hrec
          subst hrec
          exact hf c (JsonVal.obj entries) hf0 k (by simpa [recordKeys] using hmem)
  · rw [load_company_data, dictFind_dictInsert, if_neg hc] at hfind
    exact hf c record hfind k hk

theorem save_company_data_keys {f : CFile} {company : String} {data : JsonVal}
    {s' : CFile} (h : save_company_data f company data = .ok s')
    (S : String → Prop) (hS : S "final_summary") (hf : RecordKeysIn f S) :
    RecordKeysIn s' S := by
  obtain ⟨entries, hfound, rfl⟩ := save_company_data_ok h
  intro c record hfind k hk
  by_cases hc : c = company
  · subst hc
    rw [load_company_data, dictFind_dictInsert, if_pos rfl] at hfind
    obtain rfl : JsonVal.obj (dictInsert entries "final_summary" data) = record := by
      simpa using hfind
    simp only [recordKeys] at hk
    rcases mem_keys_dictInsert entries "final_summary" data k hk with rfl | hmem
    · exact hS
    · exact hf c (JsonVal.obj entries) hfound k (by simpa [recordKeys] using hmem)
  · rw [load_company_data, dictFind_dictInsert, if_neg hc] at hfind
    exact hf c record hfind k hk

theorem save_intermediate_data_obj_or_absent {f : CFile}
    {company key data : String} {s' : CFile}
    (h : save_intermediate_data f company key data = .ok s') (c : String)
    (hf : IsObjOrAbsent f c) : IsObjOrAbsent s' c := by
  obtain ⟨v, entries, _, _, rfl⟩ := save_intermediate_data_ok h
  intro record hfind
  by_cases hc : c = company
  · subst hc
    rw [load_company_data, dictFind_dictInsert, if_pos rfl] at hfind
    exact ⟨_, by simpa using hfind.symm⟩
  · rw [load_company_data, dictFind_dictInsert, if_neg hc] at hfind
    exact hf record hfind

/-! ### Lemmas about `run_news_agent` -/

theorem run_news_agent_store_props (r : Remote) (company : String) (f : CFile) :
    (∀ c₀, get_company_data (run_news_agent r company f).store c₀ =
      get_company_data f c₀) ∧
    (∀ c', c' ≠ company →
      dictFind (load_company_data (run_news_agent r company f).store) c' =
        dictFind (load_company_data f) c') ∧
    (∀ S : String → Prop, S "personnel" → S "personnel_news" →
      S "company_details" → RecordKeysIn f S →
      RecordKeysIn (run_news_agent r company f).store S) ∧
    (run_news_agent r company f).calls <+: pipelineStages := by
  cases h1 : r.get_company_personnel company with
  | error e =>
      simp only [run_news_agent, h1]
      exact ⟨fun c₀ => trivial, fun c' _ => trivial, fun S _ _ _ hf => hf,
        List.take_prefix 1 pipelineStages⟩
  | ok personnel =>
  cases hs1 : save_intermediate_data f company "personnel" personnel with
  | error e =>
      simp only [run_news_agent, h1, hs1]
      exact ⟨fun c₀ => trivial, fun c' _ => trivial, fun S _ _ _ hf => hf,
        List.take_prefix 1 pipelineStages⟩
  | ok s1 =>
  have g1 : ∀ c₀, get_company_data s1 c₀ = get_company_data f c₀ :=
    save_intermediate_data_get_company_data hs1 (by decide)
  have o1 : ∀ c', c' ≠ company →
      dictFind (load_company_data s1) c' = dictFind (load_company_data f) c' :=
    fun c' hc => save_intermediate_data_other_company hs1 c' hc
  have k1 : ∀ S : String → Prop, S "personnel" → RecordKeysIn f S →
      RecordKeysIn s1 S :=
    fun S hS hf => save_intermediate_data_keys hs1 S hS hf
  cases h2 : r.get_company_personnel_news company personnel NUMBER_OF_DAYS
      TRUSTED_NEWS_SOURCES with
  | error e =>
      simp only [run_news_agent, h1, hs1, h2]
      exact ⟨g1, o1, fun S hSa _ _ hf => k1 S hSa hf,
        List.take_prefix 2 pipelineStages⟩
  | ok personnel_news =>
  cases hs2 : save_intermediate_data s1 company "personnel_news" personnel_news with
  | error e =>
      simp only [run_news_agent, h1, hs1, h2, hs2]
      exact ⟨g1, o1, fun S hSa _ _ hf => k1 S hSa hf,
        List.take_prefix 2 pipelineStages⟩
  | ok s2 =>
  have g2 : ∀ c₀, get_company_data s2 c₀ = get_company_data f c₀ := fun c₀ =>
    (save_intermediate_data_get_company_data hs2 (by decide) c₀).trans (g1 c₀)
  have o2 : ∀ c', c' ≠ company →
      dictFind (load_company_data s2) c' = dictFind (load_company_data f) c' :=
    fun c' hc =>
      (save_intermediate_data_other_company hs2 c' hc).trans (o1 c' hc)
  have k2 : ∀ S : String → Prop, S "personnel" → S "personnel_news" →
      RecordKeysIn f S → RecordKeysIn s2 S :=
    fun S hSa hSb hf => save_intermediate_data_keys hs2 S hSb (k1 S hSa hf)
  cases h3 : r.get_company_details company with
  | error e =>
      simp only [run_news_agent, h1, hs1, h2, hs2, h3]
      exact ⟨g2, o2, fun S hSa hSb _ hf => k2 S hSa hSb hf,
        List.take_prefix 3 pipelineStages⟩
  | ok company_details =>
  cases hs3 : save_intermediate_data s2 company "company_details" company_details with
  | error e =>
      simp only [run_news_agent, h1, hs1, h2, hs2, h3, hs3]
      exact ⟨g2, o2, fun S hSa hSb _ hf => k2 S hSa hSb hf,
        List.take_prefix 3 pipelineStages⟩
  | ok s3 =>
  have g3 : ∀ c₀, get_company_data s3 c₀ = get_company_data f c₀ := fun c₀ =>
    (save_intermediate_data_get_company_data hs3 (by decide) c₀).trans (g2 c₀)
  have o3 : ∀ c', c' ≠ company →
      dictFind (load_company_data s3) c' = dictFind (load_company_data f) c' :=
    fun c' hc =>
      (save_intermediate_data_other_company hs3 c' hc).trans (o2 c' hc)
  have k3 : ∀ S : String → Prop, S "personnel" → S "personnel_news" →
      S "company_details" → RecordKeysIn f S → RecordKeysIn s3 S :=
    fun S hSa hSb hSc hf => save_intermediate_data_keys hs3 S hSc (k2 S hSa hSb hf)
  cases h4 : r.get_company_news company company_details NUMBER_OF_DAYS
      TRUSTED_NEWS_SOURCES with
  | error e =>
      simp only [run_news_agent, h1, hs1, h2, hs2, h3, hs3, h4]
      exact ⟨g3, o3, k3, List.take_prefix 4 pipelineStages⟩
  | ok company_news =>
  cases h5 : r.chat_completions_create
      (format_prompt company personnel personnel_news company_details
        company_news) with
  | error e =>
      simp only [run_news_agent, h1, hs1, h2, hs2, h3, hs3, h4, h5]
      exact ⟨g3, o3, k3, List.prefix_rfl⟩
  | ok content =>
      simp only [run_news_agent, h1, hs1, h2, hs2, h3, hs3, h4, h5]
      exact ⟨g3, o3, k3, List.prefix_rfl⟩

/-! ### Success-path lemmas -/

theorem record_or_empty_obj {f : CFile} {c : String} (h : IsObjOrAbsent f c) :
    ∃ entries, record_or_empty f c = JsonVal.obj entries := by
  unfold record_or_empty
  cases hf : dictFind (load_company_data f) c with
  | none => exact ⟨[], rfl⟩
  | some record =>
      obtain ⟨es, rfl⟩ := h record hf
      exact ⟨es, rfl⟩

theorem save_intermediate_data_success {f : CFile} {company key data : String}
    {v : JsonVal} {entries : List (String × JsonVal)}
    (hj : json_loads data = some v)
    (hr : record_or_empty f company = JsonVal.obj entries) :
    save_intermediate_data f company key data =
      .ok (.content (dictInsert (load_company_data f) company
        (.obj (dictInsert entries key v)))) := by
  unfold save_intermediate_data
  rw [hj, hr]
  simp [jSet]

theorem save_company_data_success {f : CFile} {company : String}
    {entries : List (String × JsonVal)} (data : JsonVal)
    (h : dictFind (load_company_data f) company = some (JsonVal.obj entries)) :
    save_company_data f company data =
      .ok (.content (dictInsert (load_company_data f) company
        (.obj (dictInsert entries "final_summary" data)))) := by
  unfold save_company_data
  rw [h]
  simp [jSet]

theorem run_news_agent_success (r : Remote) (company : String) (f : CFile)
    (p pn cd cn sum : String)
    (h1 : r.get_company_personnel company = .ok p)
    (h2 : r.get_company_personnel_news company p NUMBER_OF_DAYS
      TRUSTED_NEWS_SOURCES = .ok pn)
    (h3 : r.get_company_details company = .ok cd)
    (h4 : r.get_company_news company cd NUMBER_OF_DAYS
      TRUSTED_NEWS_SOURCES = .ok cn)
    (h5 : ∀ prompt, r.chat_completions_create prompt = .ok sum)
    (hp : (json_loads p).isSome) (hpn : (json_loads pn).isSome)
    (hcd : (json_loads cd).isSome) (hrec : IsObjOrAbsent f company) :
    (run_news_agent r company f).result = .ok sum ∧
    ∃ es, dictFind (load_company_data (run_news_agent r company f).store)
      company = some (JsonVal.obj es) := by
  obtain ⟨v1, hv1⟩ : ∃ v, json_loads p = some v :=
    Option.isSome_iff_exists.mp hp
  obtain ⟨v2, hv2⟩ : ∃ v, json_loads pn = some v :=
    Option.isSome_iff_exists.mp hpn
  obtain ⟨v3, hv3⟩ : ∃ v, json_loads cd = some v :=
    Option.isSome_iff_exists.mp hcd
  obtain ⟨es0, hr0⟩ := record_or_empty_obj hrec
  have e1 := @save_intermediate_data_success f company "personnel" p v1 es0 hv1 hr0
  have hr1 : record_or_empty
      (.content (dictInsert (load_company_data f) company
        (JsonVal.obj (dictInsert es0 "personnel" v1)))) company
      = JsonVal.obj (dictInsert es0 "personnel" v1) := by
    unfold record_or_empty
    simp [load_company_data_content, dictFind_dictInsert]
  have e2 := @save_intermediate_data_success _ company "personnel_news" pn v2 _ hv2 hr1
  have hr2 : record_or_empty
      (.content (dictInsert (load_company_data
          (FileState.content (dictInsert (load_company_data f) company
            (JsonVal.obj (dictInsert es0 "personnel" v1))))) company
        (JsonVal.obj (dictInsert (dictInsert es0 "personnel" v1)
          "personnel_news" v2)))) company
      = JsonVal.obj (dictInsert (dictInsert es0 "personnel" v1)
          "personnel_news" v2) := by
    unfold record_or_empty
    simp [load_company_data_content, dictFind_dictInsert]
  have e3 := @save_intermediate_data_success _ company "company_details" cd v3 _ hv3 hr2
  simp only [run_news_agent, h1, e1, h2, e2, h3, e3, h4, h5]
  refine ⟨trivial,
    dictInsert (dictInsert (dictInsert es0 "personnel" v1) "personnel_news" v2)
      "company_details" v3, ?_⟩
  simp [load_company_data_content, dictFind_dictInsert]

theorem refresh_step_success (r : Remote) (now comp : String) (f : CFile)
    (p pn cd cn sum : String)
    (h1 : r.get_company_personnel comp = .ok p)
    (h2 : r.get_company_personnel_news comp p NUMBER_OF_DAYS
      TRUSTED_NEWS_SOURCES = .ok pn)
    (h3 : r.get_company_details comp = .ok cd)
    (h4 : r.get_company_news comp cd NUMBER_OF_DAYS
      TRUSTED_NEWS_SOURCES = .ok cn)
    (h5 : ∀ prompt, r.chat_completions_create prompt = .ok sum)
    (hp : (json_loads p).isSome) (hpn : (json_loads pn).isSome)
    (hcd : (json_loads cd).isSome) (hrec : IsObjOrAbsent f comp) :
    (refresh_step r now comp f).2 = [] ∧
    storedField (refresh_step r now comp f).1 comp "final_summary" =
      some (finalSummaryVal sum now) := by
  obtain ⟨hres, es, hfind⟩ :=
    run_news_agent_success r comp f p pn cd cn sum h1 h2 h3 h4 h5 hp hpn hcd hrec
  have hsave := @save_company_data_success (run_news_agent r comp f).store comp
    es (finalSummaryVal sum now) hfind
  simp only [refresh_step, hres, hsave]
  constructor
  · trivial
  · unfold storedField
    simp [load_company_data_content, dictFind_dictInsert]

theorem refresh_step_error (r : Remote) (now comp : String) (f : CFile)
    (e : String) (h : (run_news_agent r comp f).result = .error e) :
    refresh_step r now comp f =
      ((run_news_agent r comp f).store, [schedErrMsg comp e]) := by
  simp only [refresh_step, h]

theorem refresh_all_processed (r : Remote) (now : String) (w : List String)
    (f : CFile) : (refresh_all r now w f).processed = w := by
  induction w generalizing f with
  | nil => rfl
  | cons c rest ih => simp [refresh_all, ih]

/-! ### Claim theorems -/

/-- C8: with a fresh persistence store (no watch-list file, no company-data
file), `load_watchlist` returns the empty list and `get_company_data` returns
an absent result for every company, with no exception; the same soft-fail to
the empty default holds when a file exists but its contents fail to parse. -/
theorem fresh_store_soft_fail :
    load_watchlist FileState.missing = [] ∧
    load_watchlist FileState.corrupt = [] ∧
    (∀ company : String,
      get_company_data FileState.missing company = .ok none) ∧
    (∀ company : String,
      get_company_data FileState.corrupt company = .ok none) :=
  ⟨rfl, rfl, fun _ => rfl, fun _ => rfl⟩

/-- C1 counterexample: on a store that has no record for the company (here
the empty store), `save_company_data` raises a `KeyError` at
`all_data[company]` instead of inserting a record, so no final summary is
written. -/
theorem save_company_data_missing_record_keyerror :
    save_company_data (FileState.content []) "Acme Games"
      (JsonVal.str "summary") = Except.error "KeyError" := rfl

/-- C1 (amended): when the store already holds a record (a JSON object) for
the company, `save_company_data` performs the read-modify-write, after which
the stored record's `"final_summary"` equals the given value and all other
companies' records are unchanged; when no record exists the call raises
`KeyError` instead of inserting one. -/
theorem save_company_data_existing_record_sets_final_summary
    (f : CFile) (company : String) (entries : List (String × JsonVal))
    (data : JsonVal)
    (h : dictFind (load_company_data f) company = some (JsonVal.obj entries)) :
    ∃ s', save_company_data f company data = .ok s' ∧
      storedField s' company "final_summary" = some data ∧
      ∀ c', c' ≠ company →
        dictFind (load_company_data s') c' =
          dictFind (load_company_data f) c' := by
  refine ⟨_, @save_company_data_success f company entries data h, ?_, ?_⟩
  · unfold storedField
    simp [load_company_data_content, dictFind_dictInsert]
  · intro c' hc
    simp [load_company_data_content, dictFind_dictInsert, hc]

/-- Witness for C1's amended theorem at a concrete one-record store. -/
theorem save_company_data_existing_record_sets_final_summary_inst :
    ∃ s', save_company_data
        (FileState.content [("Acme Games", JsonVal.obj [])]) "Acme Games"
        (JsonVal.str "md") = .ok s' ∧
      storedField s' "Acme Games" "final_summary" = some (JsonVal.str "md") := by
  obtain ⟨s', ha, hb, _⟩ :=
    save_company_data_existing_record_sets_final_summary
      (FileState.content [("Acme Games", JsonVal.obj [])]) "Acme Games" []
      (JsonVal.str "md") (by rfl)
  exact ⟨s', ha, hb⟩

/-- A remote boundary whose personnel stage returns text that is not JSON;
the other stages are never reached. -/
def rBadPersonnel : Remote :=
  ⟨fun _ => .ok "not json", fun _ _ _ _ => .error "unused",
   fun _ => .error "unused", fun _ _ _ _ => .error "unused",
   fun _ => .error "unused"⟩

/-- C10: when the `data` string passed to `save_intermediate_data` is not
valid JSON text, the call raises `json.JSONDecodeError` and the company-data
file is left exactly as it was (the parse happens before the file write); in
particular a pipeline whose personnel stage returns unparseable text stops
with the file unchanged. -/
theorem save_intermediate_invalid_json_no_write
    (f : CFile) (company key data : String) (h : json_loads data = none) :
    save_intermediate_data f company key data = .error "JSONDecodeError" ∧
    ∀ r : Remote, r.get_company_personnel company = .ok data →
      run_news_agent r company f =
        ⟨f, pipelineStages.take 1, .error "JSONDecodeError"⟩ := by
  have hsave : ∀ k, save_intermediate_data f company k data =
      .error "JSONDecodeError" := by
    intro k
    unfold save_intermediate_data
    rw [h]
  refine ⟨hsave key, ?_⟩
  intro r hr
  simp only [run_news_agent, hr, hsave]

/-- Witness for C10 at the concrete non-JSON string `"not json"`. -/
theorem save_intermediate_invalid_json_no_write_inst :
    save_intermediate_data (FileState.content [("X", JsonVal.obj [])]) "Acme"
      "personnel" "not json" = .error "JSONDecodeError" ∧
    run_news_agent rBadPersonnel "Acme"
        (FileState.content [("X", JsonVal.obj [])]) =
      ⟨FileState.content [("X", JsonVal.obj [])], pipelineStages.take 1,
        .error "JSONDecodeError"⟩ := by
  obtain ⟨ha, hb⟩ := save_intermediate_invalid_json_no_write
    (FileState.content [("X", JsonVal.obj [])]) "Acme" "personnel" "not json"
    (by rfl)
  exact ⟨ha, hb rBadPersonnel (by rfl)⟩

/-- C4: for every company, stage key, and value `v` whose JSON serialization
is passed as `data`, `save_intermediate_data` succeeds and the stored value
at `load_company_data()[company][key]` is deep-equal to `v`, for every prior
store whose record for the company is absent (the record is created) or an
object. -/
theorem save_intermediate_roundtrip
    (f : CFile) (company key data : String) (v : JsonVal)
    (hparse : json_loads data = some v)
    (hrec : IsObjOrAbsent f company) :
    ∃ s', save_intermediate_data f company key data = .ok s' ∧
      storedField s' company key = some v := by
  obtain ⟨entries, hr⟩ := record_or_empty_obj hrec
  refine ⟨_, @save_intermediate_data_success f company key data v entries
    hparse hr, ?_⟩
  unfold storedField
  simp [load_company_data_content, dictFind_dictInsert]

/-- Witness for C4 at a fresh store and the concrete payload `"[1, 2]"`. -/
theorem save_intermediate_roundtrip_inst :
    ∃ s', save_intermediate_data FileState.missing "Acme" "personnel"
        "[1, 2]" = .ok s' ∧
      storedField s' "Acme" "personnel" =
        some (JsonVal.arr [JsonVal.num 1, JsonVal.num 2]) :=
  save_intermediate_roundtrip FileState.missing "Acme" "personnel" "[1, 2]"
    (JsonVal.arr [JsonVal.num 1, JsonVal.num 2]) (by rfl)
    (by intro record hfind; simp [load_company_data, dictFind] at hfind)

/-- C3: `save_watchlist` followed by `load_watchlist` returns the sorted,
deduplicated sequence whose underlying set equals the deduplicated input set,
and saving the list with an already-present name appended stores the same
file (idempotence of add). -/
theorem watchlist_save_load_sorted_dedup (w : List String) :
    List.Sorted (· ≤ ·) (load_watchlist (save_watchlist w)) ∧
    (load_watchlist (save_watchlist w)).Nodup ∧
    (∀ s, s ∈ load_watchlist (save_watchlist w) ↔ s ∈ w) ∧
    (∀ x, x ∈ w → save_watchlist (w ++ [x]) = save_watchlist w) := by
  have hload : load_watchlist (save_watchlist w) =
      Finset.sort (· ≤ ·) w.toFinset := rfl
  refine ⟨?_, ?_, ?_, ?_⟩
  · rw [hload]
    exact Finset.sort_sorted _ _
  · rw [hload]
    exact Finset.sort_nodup _ _
  · intro s
    rw [hload, Finset.mem_sort, List.mem_toFinset]
  · intro x hx
    unfold save_watchlist pySortedSet
    rw [List.toFinset_append]
    have hx' : ([x].toFinset : Finset String) ⊆ w.toFinset := by
      simp [hx]
    rw [Finset.union_eq_left.mpr hx']

/-- Witness for C3's membership and idempotence parts at the concrete input
`["b", "a", "b"]`. -/
theorem watchlist_save_load_sorted_dedup_inst :
    (∀ s, s ∈ load_watchlist (save_watchlist ["b", "a", "b"]) ↔
      s ∈ ["b", "a", "b"]) ∧
    save_watchlist (["b", "a", "b"] ++ ["b"]) = save_watchlist ["b", "a", "b"] :=
  ⟨(watchlist_save_load_sorted_dedup ["b", "a", "b"]).2.2.1,
   (watchlist_save_load_sorted_dedup ["b", "a", "b"]).2.2.2 "b" (by decide)⟩

/-- C7: building the personnel-news prompt (and likewise the company-news
prompt) with a trusted-source configuration missing any one of the required
categories raises a `KeyError` at build time, rather than returning a prompt
string with a blank section. -/
theorem prompt_builder_missing_category_raises
    (company prior : String) (days : Nat) (ts : SourcesDict) (cat : String)
    (hcat : cat ∈ requiredSourceCategories) (hmiss : dictFind ts cat = none) :
    isError (format_prompt_company_personnel_news_prompt company prior days
      ts) = true ∧
    isError (format_prompt_company_news_prompt company prior days ts) = true := by
  have hone : dictFind ts "gaming_industry" = none ∨
      dictFind ts "business_sources" = none ∨
      dictFind ts "company_channels" = none := by
    simp only [requiredSourceCategories, List.mem_cons, List.mem_singleton,
      List.not_mem_nil, or_false] at hcat
    rcases hcat with rfl | rfl | rfl
    · exact Or.inl hmiss
    · exact Or.inr (Or.inl hmiss)
    · exact Or.inr (Or.inr hmiss)
  constructor
  · cases hg : dictFind ts "gaming_industry" with
    | none =>
        simp [format_prompt_company_personnel_news_prompt, sourcesGet, hg,
          isError]
    | some g =>
        cases hb : dictFind ts "business_sources" with
        | none =>
            simp [format_prompt_company_personnel_news_prompt, sourcesGet, hg,
              hb, isError]
        | some b =>
            cases hc : dictFind ts "company_channels" with
            | none =>
                simp [format_prompt_company_personnel_news_prompt, sourcesGet,
                  hg, hb, hc, isError]
            | some c =>
                exfalso
                rcases hone with h | h | h
                · rw [hg] at h; cases h
                · rw [hb] at h; cases h
                · rw [hc] at h; cases h
  · cases hg : dictFind ts "gaming_industry" with
    | none =>
        simp [format_prompt_company_news_prompt, sourcesGet, hg, isError]
    | some g =>
        cases hb : dictFind ts "business_sources" with
        | none =>
            simp [format_prompt_company_news_prompt, sourcesGet, hg, hb,
              isError]
        | some b =>
            cases hc : dictFind ts "company_channels" with
            | none =>
                simp [format_prompt_company_news_prompt, sourcesGet, hg, hb,
                  hc, isError]
            | some c =>
                exfalso
                rcases hone with h | h | h
                · rw [hg] at h; cases h
                · rw [hb] at h; cases h
                · rw [hc] at h; cases h

/-- A source configuration missing the `"company_channels"` category. -/
def tsNoChannels : SourcesDict :=
  [("gaming_industry", ["IGN"]), ("business_sources", ["Reuters"])]

/-- Witness for C7 with the `"company_channels"` category missing. -/
theorem prompt_builder_missing_category_raises_inst :
    isError (format_prompt_company_personnel_news_prompt "Acme" "[]" 180
      tsNoChannels) = true ∧
    isError (format_prompt_company_news_prompt "Acme" "[]" 180
      tsNoChannels) = true :=
  prompt_builder_missing_category_raises "Acme" "[]" 180 tsNoChannels
    "company_channels" (by decide) (by rfl)

/-- A remote boundary on which every call raises. -/
def rAllFail : Remote :=
  ⟨fun _ => .error "boom", fun _ _ _ _ => .error "boom",
   fun _ => .error "boom", fun _ _ _ _ => .error "boom",
   fun _ => .error "boom"⟩

/-- C9 counterexample: the job registered with an empty captured watch-list
processes nothing when it fires, even though the persisted watch-list at
trigger time holds `["Acme Games"]` — the job does not iterate the current
watch-list. -/
theorem trigger_stale_watchlist_cex :
    (trigger_scheduled_job [] (FileState.content ["Acme Games"]) rAllFail
      "2026-01-05T09:00:00" FileState.missing).processed = [] ∧
    load_watchlist (FileState.content ["Acme Games"]) = ["Acme Games"] ∧
    ([] : List String) ≠ ["Acme Games"] :=
  ⟨rfl, rfl, by simp⟩

/-- C9 (amended): on each trigger the refresh job iterates exactly the
watch-list that was captured when `schedule_weekly_refresh` registered the
job, independently of the persisted watch-list file at trigger time. -/
theorem trigger_processes_captured_watchlist
    (captured : List String) (wf wf' : FileState (List String)) (r : Remote)
    (now : String) (f : CFile) :
    (trigger_scheduled_job captured wf r now f).processed = captured ∧
    trigger_scheduled_job captured wf r now f =
      trigger_scheduled_job captured wf' r now f :=
  ⟨refresh_all_processed r now captured f, rfl⟩

/-- C2: when any stage of `run_news_agent` raises, the executed remote calls
form a prefix of the pipeline (no stage after the failure point executes), no
company's `"final_summary"` changes, and neither the interactive Fetch
Summary handler nor the scheduler's per-company step persists a final summary
for that run. -/
theorem pipeline_failure_no_final_summary
    (r : Remote) (company now : String) (f : CFile) (e : String)
    (h : (run_news_agent r company f).result = .error e) :
    (run_news_agent r company f).calls <+: pipelineStages ∧
    (∀ c₀, get_company_data (run_news_agent r company f).store c₀ =
      get_company_data f c₀) ∧
    fetch_summary_handler r company now f =
      ((run_news_agent r company f).store, some e) ∧
    (∀ c₀, get_company_data (fetch_summary_handler r company now f).1 c₀ =
      get_company_data f c₀) ∧
    refresh_step r now company f =
      ((run_news_agent r company f).store, [schedErrMsg company e]) ∧
    (∀ c₀, get_company_data (refresh_step r now company f).1 c₀ =
      get_company_data f c₀) := by
  obtain ⟨hget, _, _, hpre⟩ := run_news_agent_store_props r company f
  have hfetch : fetch_summary_handler r company now f =
      ((run_news_agent r company f).store, some e) := by
    simp only [fetch_summary_handler, h]
  have hstep := refresh_step_error r now company f e h
  exact ⟨hpre, hget, hfetch, by rw [hfetch]; exact hget, hstep,
    by rw [hstep]; exact hget⟩

/-- Witness for C2 with an always-failing remote boundary on a fresh store. -/
theorem pipeline_failure_no_final_summary_inst :
    (∀ c₀, get_company_data
        (fetch_summary_handler rAllFail "Acme" "t" FileState.missing).1 c₀ =
      get_company_data FileState.missing c₀) ∧
    refresh_step rAllFail "t" "Acme" FileState.missing =
      ((run_news_agent rAllFail "Acme" FileState.missing).store,
        [schedErrMsg "Acme" "boom"]) := by
  obtain ⟨_, _, _, h4, h5, _⟩ := pipeline_failure_no_final_summary rAllFail
    "Acme" "t" FileState.missing "boom" (by rfl)
  exact ⟨h4, h5⟩

theorem fetch_summary_handler_keys (r : Remote) (company now : String)
    (f : CFile) (S : String → Prop) (hSa : S "personnel")
    (hSb : S "personnel_news") (hSc : S "company_details")
    (hSd : S "final_summary") (hf : RecordKeysIn f S) :
    RecordKeysIn (fetch_summary_handler r company now f).1 S := by
  obtain ⟨_, _, hkeys, _⟩ := run_news_agent_store_props r company f
  have hrun := hkeys S hSa hSb hSc hf
  cases hres : (run_news_agent r company f).result with
  | error e =>
      simp only [fetch_summary_handler, hres]
      exact hrun
  | ok summary =>
      cases hsave : save_company_data (run_news_agent r company f).store
          company (finalSummaryVal summary now) with
      | error e =>
          simp only [fetch_summary_handler, hres, hsave]
          exact hrun
      | ok s' =>
          simp only [fetch_summary_handler, hres, hsave]
          exact save_company_data_keys hsave S hSd hrun

theorem refresh_step_keys (r : Remote) (now comp : String) (f : CFile)
    (S : String → Prop) (hSa : S "personnel") (hSb : S "personnel_news")
    (hSc : S "company_details") (hSd : S "final_summary")
    (hf : RecordKeysIn f S) : RecordKeysIn (refresh_step r now comp f).1 S := by
  obtain ⟨_, _, hkeys, _⟩ := run_news_agent_store_props r comp f
  have hrun := hkeys S hSa hSb hSc hf
  cases hres : (run_news_agent r comp f).result with
  | error e =>
      simp only [refresh_step, hres]
      exact hrun
  | ok summary =>
      cases hsave : save_company_data (run_news_agent r comp f).store comp
          (finalSummaryVal summary now) with
      | error e =>
          simp only [refresh_step, hres, hsave]
          exact hrun
      | ok s' =>
          simp only [refresh_step, hres, hsave]
          exact save_company_data_keys hsave S hSd hrun

theorem refresh_all_keys (r : Remote) (now : String) (w : List String)
    (f : CFile) (S : String → Prop) (hSa : S "personnel")
    (hSb : S "personnel_news") (hSc : S "company_details")
    (hSd : S "final_summary") (hf : RecordKeysIn f S) :
    RecordKeysIn (refresh_all r now w f).store S := by
  induction w generalizing f with
  | nil => exact hf
  | cons c rest ih =>
      exact ih (refresh_step r now c f).1
        (refresh_step_keys r now c f S hSa hSb hSc hSd hf)

/-- C5: every write performed by the reference flow (the three
intermediate-stage saves of a pipeline run and the final-summary save on
success, whether triggered interactively or by the weekly job) keeps each
stored company record's keys within
`{personnel, personnel_news, company_details, final_summary}`; in particular
no record ever gains a `"company_news"` key, because persistence of the
fourth stage's result is skipped. -/
theorem record_keys_invariant
    (r : Remote) (company now : String) (f : CFile) (w : List String)
    (h1 : RecordKeysIn f (fun k => k ∈ allowedRecordKeys))
    (h2 : RecordKeysIn f (fun k => k ≠ "company_news")) :
    RecordKeysIn (fetch_summary_handler r company now f).1
      (fun k => k ∈ allowedRecordKeys) ∧
    RecordKeysIn (fetch_summary_handler r company now f).1
      (fun k => k ≠ "company_news") ∧
    RecordKeysIn (refresh_all r now w f).store
      (fun k => k ∈ allowedRecordKeys) ∧
    RecordKeysIn (refresh_all r now w f).store
      (fun k => k ≠ "company_news") := by
  refine ⟨?_, ?_, ?_, ?_⟩
  · exact fetch_summary_handler_keys r company now f _ (by decide) (by decide)
      (by decide) (by decide) h1
  · exact fetch_summary_handler_keys r company now f _ (by decide) (by decide)
      (by decide) (by decide) h2
  · exact refresh_all_keys r now w f _ (by decide) (by decide) (by decide)
      (by decide) h1
  · exact refresh_all_keys r now w f _ (by decide) (by decide) (by decide)
      (by decide) h2

/-- Witness for C5 on a fresh store, a one-company watch-list, and the
always-failing remote boundary. -/
theorem record_keys_invariant_inst :
    RecordKeysIn (fetch_summary_handler rAllFail "Acme" "t" FileState.missing).1
      (fun k => k ∈ allowedRecordKeys) ∧
    RecordKeysIn (refresh_all rAllFail "t" ["Acme"] FileState.missing).store
      (fun k => k ≠ "company_news") := by
  have hvac1 : RecordKeysIn FileState.missing
      (fun k => k ∈ allowedRecordKeys) := by
    intro c record hfind
    simp [load_company_data, dictFind] at hfind
  have hvac2 : RecordKeysIn FileState.missing
      (fun k => k ≠ "company_news") := by
    intro c record hfind
    simp [load_company_data, dictFind] at hfind
  obtain ⟨ha, _, _, hd⟩ := record_keys_invariant rAllFail "Acme" "t"
    FileState.missing ["Acme"] hvac1 hvac2
  exact ⟨ha, hd⟩

/-- C6: when the weekly job fires over `["Acme Games", "Bolt Studios"]` and
the pipeline raises for "Acme Games", the error is caught into a log line
without aborting the loop; "Bolt Studios" is still processed and, its stages
succeeding, receives a persisted `final_summary` carrying the job's
timestamp. -/
theorem scheduler_catches_and_continues
    (r : Remote) (now : String) (f : CFile) (e p pn cd cn sum : String)
    (hA : (run_news_agent r "Acme Games" f).result = .error e)
    (h1 : r.get_company_personnel "Bolt Studios" = .ok p)
    (h2 : r.get_company_personnel_news "Bolt Studios" p NUMBER_OF_DAYS
      TRUSTED_NEWS_SOURCES = .ok pn)
    (h3 : r.get_company_details "Bolt Studios" = .ok cd)
    (h4 : r.get_company_news "Bolt Studios" cd NUMBER_OF_DAYS
      TRUSTED_NEWS_SOURCES = .ok cn)
    (h5 : ∀ prompt, r.chat_completions_create prompt = .ok sum)
    (hp : (json_loads p).isSome) (hpn : (json_loads pn).isSome)
    (hcd : (json_loads cd).isSome)
    (hrec : IsObjOrAbsent f "Bolt Studios") :
    (refresh_all r now ["Acme Games", "Bolt Studios"] f).log =
      [schedErrMsg "Acme Games" e] ∧
    storedField (refresh_all r now ["Acme Games", "Bolt Studios"] f).store
      "Bolt Studios" "final_summary" = some (finalSummaryVal sum now) ∧
    (refresh_all r now ["Acme Games", "Bolt Studios"] f).processed =
      ["Acme Games", "Bolt Studios"] := by
  have hstepA := refresh_step_error r now "Acme Games" f e hA
  obtain ⟨_, hotherA, _, _⟩ := run_news_agent_store_props r "Acme Games" f
  have hrecB : IsObjOrAbsent (run_news_agent r "Acme Games" f).store
      "Bolt Studios" := by
    intro record hfind
    rw [hotherA "Bolt Studios" (by decide)] at hfind
    exact hrec record hfind
  have hstepB := refresh_step_success r now "Bolt Studios"
    (run_news_agent r "Acme Games" f).store p pn cd cn sum h1 h2 h3 h4 h5 hp
    hpn hcd hrecB
  refine ⟨?_, ?_, refresh_all_processed r now _ f⟩
  · simp only [refresh_all, hstepA, hstepB.1]
    rfl
  · simp only [refresh_all, hstepA]
    exact hstepB.2

/-- A remote boundary on which every "Acme Games" call fails with a network
error and every other company's stage succeeds. -/
def rEx : Remote :=
  ⟨fun c => if c = "Acme Games" then .error "network down" else .ok "[]",
   fun _ _ _ _ => .ok "[]",
   fun _ => .ok "[]",
   fun _ _ _ _ => .ok "[]",
   fun _ => .ok "weekly summary"⟩

/-- Witness for C6 at the concrete watch-list
`["Acme Games", "Bolt Studios"]` on an empty store. -/
theorem scheduler_catches_and_continues_inst :
    (refresh_all rEx "2026-01-05T09:00:00" ["Acme Games", "Bolt Studios"]
      (FileState.content [])).log =
      [schedErrMsg "Acme Games" "network down"] ∧
    storedField (refresh_all rEx "2026-01-05T09:00:00"
        ["Acme Games", "Bolt Studios"] (FileState.content [])).store
      "Bolt Studios" "final_summary" =
      some (finalSummaryVal "weekly summary" "2026-01-05T09:00:00") ∧
    (refresh_all rEx "2026-01-05T09:00:00" ["Acme Games", "Bolt Studios"]
      (FileState.content [])).processed = ["Acme Games", "Bolt Studios"] :=
  scheduler_catches_and_continues rEx "2026-01-05T09:00:00"
    (FileState.content []) "network down" "[]" "[]" "[]" "[]" "weekly summary"
    (by rfl) (by rfl) (by rfl) (by rfl) (by rfl) (fun _ => rfl) (by rfl)
    (by rfl) (by rfl)
    (by intro record hfind; simp [load_company_data_content, dictFind] at hfind)

end NewsAgent
